import Mathlib

/-!
Verification of `juce_FontOptions.h` (module `juce_graphics/fonts`).

The header defines three value types:

* `FontVariation.Tag` — a 4-byte variable-font axis identifier wrapping a
  `uint32_t`, compared by raw integer value;
* `FontVariation` — a (tag, float value) pair with lexicographic comparison;
* `FontOptions` — an immutable options record with copy-returning `with*`
  mutators and plain `get*` accessors.

Embedding conventions:

* C++ `float` fields are modelled as `ℚ`: no arithmetic is performed on them
  by this file's code (they are only stored, returned and compared), so a
  totally ordered exact numeric type is faithful for every non-NaN input.
* `juce::String` is modelled as `String`.
* `Typeface::Ptr` (a reference-counted pointer to an externally defined
  `Typeface`, which is not part of this header) is modelled as
  `Option Typeface`, where `Typeface` carries the pointer identity `id`
  together with the name and style strings that `Typeface::getName` /
  `Typeface::getStyle` return; `none` models `nullptr`.
* `uint32_t` tag values are modelled as `ℕ`; the header only stores and
  compares them, so no wrap-around is exercised.
* `jassert` / `jassertfalse` are debug-only and compile to nothing in
  release builds; the model follows the release-mode control flow, which is
  what every statement below is about.
* `withMember (obj, &T::field, x)` is the JUCE helper returning a copy of
  `obj` with the named field replaced; it is modelled by a structure update.
-/

namespace JuceFontOptions

/-- Modelled from the spec: the externally defined, reference-counted
`Typeface` object that a `Typeface::Ptr` points at (`juce_Typeface.h` is not
part of the verified source). Only the features the header uses are modelled:
pointer identity (`id`), and the `getName` / `getStyle` accessors, which
return the typeface's own name and style strings. -/
structure Typeface where
  id : Nat
  name : String
  style : String
  deriving DecidableEq

/-- Modelled from the spec: the externally defined metrics-reporting
enumeration (`TypefaceMetricsKind`); the header only references the value
`portable`, used as the default of `FontOptions::metricsKind`. -/
inductive TypefaceMetricsKind where
  | legacy
  | portable
  deriving DecidableEq

/-- `FontVariation.Tag`: wraps a `uint32_t` axis tag
(`struct Tag { uint32_t tag = 0; ... }`). -/
structure Tag where
  tag : Nat
  deriving DecidableEq

/-- `Tag::operator==`: `tag == other.tag`. -/
def Tag.beq (a b : Tag) : Bool :=
  a.tag == b.tag

/-- `Tag::operator!=`: `tag != other.tag`. -/
def Tag.bne (a b : Tag) : Bool :=
  a.tag != b.tag

/-- `Tag::operator<`: `tag < other.tag`. -/
def Tag.blt (a b : Tag) : Bool :=
  decide (a.tag < b.tag)

/-- `FontVariation`: an axis `tag` together with the `value` to set for
that axis. -/
structure FontVariation where
  tag : Tag
  value : ℚ
  deriving DecidableEq

/-- `FontVariation::operator==`: `tag == other.tag && value == other.value`. -/
def FontVariation.beq (a b : FontVariation) : Bool :=
  Tag.beq a.tag b.tag && decide (a.value = b.value)

/-- `FontVariation::operator!=`: `! operator== (other)`. -/
def FontVariation.bne (a b : FontVariation) : Bool :=
  ! FontVariation.beq a b

/-- `FontVariation::operator<`:
`std::tie (tag.tag, value) < std::tie (other.tag.tag, other.value)`,
i.e. `std::tuple`'s lexicographic comparison
`a₁ < b₁ || (!(b₁ < a₁) && a₂ < b₂)`. -/
def FontVariation.blt (a b : FontVariation) : Bool :=
  decide (a.tag.tag < b.tag.tag) ||
    (! decide (b.tag.tag < a.tag.tag) && decide (a.value < b.value))

/-- The `FontOptions` record: fields in declaration order with the default
member initializers of the header
(`String name, style; Typeface::Ptr typeface; std::vector<String> fallbacks;
TypefaceMetricsKind metricsKind { portable }; float height = -1.0f;
float pointHeight = -1.0f; float tracking{}; float horizontalScale = 1.0f;
float ascentOverride = -1.0f; float descentOverride = -1.0f;
bool fallbackEnabled = true; bool underlined{};
std::vector<FontVariation> variations;`). -/
structure FontOptions where
  name : String := ""
  style : String := ""
  typeface : Option Typeface := none
  fallbacks : List String := []
  metricsKind : TypefaceMetricsKind := .portable
  height : ℚ := -1
  pointHeight : ℚ := -1
  tracking : ℚ := 0
  horizontalScale : ℚ := 1
  ascentOverride : ℚ := -1
  descentOverride : ℚ := -1
  fallbackEnabled : Bool := true
  underlined : Bool := false
  variations : List FontVariation := []
  deriving DecidableEq

namespace FontOptions

/-- Modelled from the spec: the default constructor `FontOptions()` — its
body lives in a source file outside the verified header; per the spec it
produces "unset/default values", i.e. exactly the default member
initializers of the header. -/
def default : FontOptions := {}

/-- `withName`: `if (typeface == nullptr) return withMember (*this,
&FontOptions::name, x); jassertfalse; return *this;`. -/
def withName (o : FontOptions) (x : String) : FontOptions :=
  if o.typeface = none then { o with name := x } else o

/-- `withStyle`: `if (typeface == nullptr) return withMember (*this,
&FontOptions::style, x); jassertfalse; return *this;`. -/
def withStyle (o : FontOptions) (x : String) : FontOptions :=
  if o.typeface = none then { o with style := x } else o

/-- `withTypeface`: `auto result = (x != nullptr
? withName (x->getName()).withStyle (x->getStyle()) : *this);
return withMember (std::move (result), &FontOptions::typeface, x);`. -/
def withTypeface (o : FontOptions) (x : Option Typeface) : FontOptions :=
  let result := match x with
    | some t => (o.withName t.name).withStyle t.style
    | none => o
  { result with typeface := x }

/-- `withFallbacks`: `withMember (*this, &FontOptions::fallbacks, x)`. -/
def withFallbacks (o : FontOptions) (x : List String) : FontOptions :=
  { o with fallbacks := x }

/-- `withFallbackEnabled`: `withMember (*this, &FontOptions::fallbackEnabled, x)`. -/
def withFallbackEnabled (o : FontOptions) (x : Bool) : FontOptions :=
  { o with fallbackEnabled := x }

/-- `withHeight`: `jassert (x > 0); auto copy = *this; copy.height = x;
copy.pointHeight = -1.0f; return copy;`. -/
def withHeight (o : FontOptions) (x : ℚ) : FontOptions :=
  { o with height := x, pointHeight := -1 }

/-- `withPointHeight`: `jassert (x > 0); auto copy = *this;
copy.pointHeight = x; copy.height = -1.0f; return copy;`. -/
def withPointHeight (o : FontOptions) (x : ℚ) : FontOptions :=
  { o with pointHeight := x, height := -1 }

/-- `withKerningFactor`: `withMember (*this, &FontOptions::tracking, x)`. -/
def withKerningFactor (o : FontOptions) (x : ℚ) : FontOptions :=
  { o with tracking := x }

/-- `withHorizontalScale`: `withMember (*this, &FontOptions::horizontalScale, x)`. -/
def withHorizontalScale (o : FontOptions) (x : ℚ) : FontOptions :=
  { o with horizontalScale := x }

/-- `withUnderline`: `withMember (*this, &FontOptions::underlined, x)`. -/
def withUnderline (o : FontOptions) (x : Bool) : FontOptions :=
  { o with underlined := x }

/-- `withMetricsKind`: `withMember (*this, &FontOptions::metricsKind, x)`. -/
def withMetricsKind (o : FontOptions) (x : TypefaceMetricsKind) : FontOptions :=
  { o with metricsKind := x }

/-- `withAscentOverride`: `withMember (*this, &FontOptions::ascentOverride,
x.value_or (-1.0f))`. -/
def withAscentOverride (o : FontOptions) (x : Option ℚ) : FontOptions :=
  { o with ascentOverride := x.getD (-1) }

/-- `withDescentOverride`: `withMember (*this, &FontOptions::descentOverride,
x.value_or (-1.0f))`. -/
def withDescentOverride (o : FontOptions) (x : Option ℚ) : FontOptions :=
  { o with descentOverride := x.getD (-1) }

/-- `withVariations`: `withMember (*this, &FontOptions::variations, x)`. -/
def withVariations (o : FontOptions) (x : List FontVariation) : FontOptions :=
  { o with variations := x }

/-- The list transformation performed by `withVariation` on the `variations`
vector: `std::find_if` locates the first entry whose tag compares equal to
the given tag; if found its `value` is assigned in place, otherwise
`{ tag, value }` is appended with `push_back`. -/
def upsert (t : Tag) (value : ℚ) : List FontVariation → List FontVariation
  | [] => [⟨t, value⟩]
  | v :: vs =>
      if v.tag = t then { v with value := value } :: vs
      else v :: upsert t value vs

/-- `withVariation`: `auto copy = *this; auto& vars = copy.variations;
auto it = std::find_if (...); if (it != vars.end()) it->value = value;
else vars.push_back ({ tag, value }); return copy;`. -/
def withVariation (o : FontOptions) (t : Tag) (value : ℚ) : FontOptions :=
  { o with variations := upsert t value o.variations }

/-- `getName`. -/
def getName (o : FontOptions) : String := o.name

/-- `getStyle`. -/
def getStyle (o : FontOptions) : String := o.style

/-- `getTypeface`. -/
def getTypeface (o : FontOptions) : Option Typeface := o.typeface

/-- `getFallbacks`. -/
def getFallbacks (o : FontOptions) : List String := o.fallbacks

/-- `getHeight`. -/
def getHeight (o : FontOptions) : ℚ := o.height

/-- `getPointHeight`. -/
def getPointHeight (o : FontOptions) : ℚ := o.pointHeight

/-- `getKerningFactor`. -/
def getKerningFactor (o : FontOptions) : ℚ := o.tracking

/-- `getHorizontalScale`. -/
def getHorizontalScale (o : FontOptions) : ℚ := o.horizontalScale

/-- `getFallbackEnabled`. -/
def getFallbackEnabled (o : FontOptions) : Bool := o.fallbackEnabled

/-- `getUnderline`. -/
def getUnderline (o : FontOptions) : Bool := o.underlined

/-- `getMetricsKind`. -/
def getMetricsKind (o : FontOptions) : TypefaceMetricsKind := o.metricsKind

/-- `getAscentOverride`: `ascentOverride >= 0.0f
? std::make_optional (ascentOverride) : std::nullopt`. -/
def getAscentOverride (o : FontOptions) : Option ℚ :=
  if 0 ≤ o.ascentOverride then some o.ascentOverride else none

/-- `getDescentOverride`: `descentOverride >= 0.0f
? std::make_optional (descentOverride) : std::nullopt`. -/
def getDescentOverride (o : FontOptions) : Option ℚ :=
  if 0 ≤ o.descentOverride then some o.descentOverride else none

/-- `getVariations`. -/
def getVariations (o : FontOptions) : List FontVariation := o.variations

/-- Modelled from the spec: `FontOptions (float fontHeight)` — a constructor
that seeds the pixel height (its body lives outside the verified header). -/
def mkHeight (fontHeight : ℚ) : FontOptions := { height := fontHeight }

/-- Modelled from the spec: `FontOptions (float fontHeight, int styleFlags)`.
The style flags are abstract bit-flags interpreted by the external rendering
layer ("this type does not interpret them beyond passthrough in
constructors"); they touch no height field, which is all the statements
below rely on. -/
def mkHeightFlags (fontHeight : ℚ) (_styleFlags : ℤ) : FontOptions :=
  { height := fontHeight }

/-- Modelled from the spec:
`FontOptions (const String& typefaceName, float fontHeight, int styleFlags)`
— seeds the typeface family name and the pixel height. -/
def mkName (typefaceName : String) (fontHeight : ℚ) (_styleFlags : ℤ) :
    FontOptions :=
  { name := typefaceName, height := fontHeight }

/-- Modelled from the spec: `FontOptions (const String& typefaceName,
const String& typefaceStyle, float fontHeight)` — seeds the typeface family
name, the style string and the pixel height. -/
def mkNameStyle (typefaceName typefaceStyle : String) (fontHeight : ℚ) :
    FontOptions :=
  { name := typefaceName, style := typefaceStyle, height := fontHeight }

/-- Modelled from the spec: `FontOptions (const Typeface::Ptr& typeface)` —
seeds an explicit typeface handle; per the spec the name/style fields are
derived from the handle when one is supplied, and the heights stay unset. -/
def mkTypeface : Option Typeface → FontOptions
  | some t => { name := t.name, style := t.style, typeface := some t }
  | none => {}

/-- The values reachable from any of the header's constructors by any
sequence of `with*` calls. -/
inductive Reachable : FontOptions → Prop where
  | mk_default : Reachable FontOptions.default
  | mk_height (h : ℚ) : Reachable (mkHeight h)
  | mk_height_flags (h : ℚ) (f : ℤ) : Reachable (mkHeightFlags h f)
  | mk_name (n : String) (h : ℚ) (f : ℤ) : Reachable (mkName n h f)
  | mk_name_style (n s : String) (h : ℚ) : Reachable (mkNameStyle n s h)
  | mk_typeface (t : Option Typeface) : Reachable (mkTypeface t)
  | step_name (o : FontOptions) (x : String) :
      Reachable o → Reachable (o.withName x)
  | step_style (o : FontOptions) (x : String) :
      Reachable o → Reachable (o.withStyle x)
  | step_typeface (o : FontOptions) (x : Option Typeface) :
      Reachable o → Reachable (o.withTypeface x)
  | step_fallbacks (o : FontOptions) (x : List String) :
      Reachable o → Reachable (o.withFallbacks x)
  | step_fallback_enabled (o : FontOptions) (x : Bool) :
      Reachable o → Reachable (o.withFallbackEnabled x)
  | step_height (o : FontOptions) (x : ℚ) :
      Reachable o → Reachable (o.withHeight x)
  | step_point_height (o : FontOptions) (x : ℚ) :
      Reachable o → Reachable (o.withPointHeight x)
  | step_kerning (o : FontOptions) (x : ℚ) :
      Reachable o → Reachable (o.withKerningFactor x)
  | step_horizontal_scale (o : FontOptions) (x : ℚ) :
      Reachable o → Reachable (o.withHorizontalScale x)
  | step_underline (o : FontOptions) (x : Bool) :
      Reachable o → Reachable (o.withUnderline x)
  | step_metrics_kind (o : FontOptions) (x : TypefaceMetricsKind) :
      Reachable o → Reachable (o.withMetricsKind x)
  | step_ascent (o : FontOptions) (x : Option ℚ) :
      Reachable o → Reachable (o.withAscentOverride x)
  | step_descent (o : FontOptions) (x : Option ℚ) :
      Reachable o → Reachable (o.withDescentOverride x)
  | step_variations (o : FontOptions) (x : List FontVariation) :
      Reachable o → Reachable (o.withVariations x)
  | step_variation (o : FontOptions) (t : Tag) (v : ℚ) :
      Reachable o → Reachable (o.withVariation t v)

end FontOptions

/-- The Boolean form of the predicate passed to `std::find_if` by
`withVariation`: `v.tag == tag` (raw integer tag comparison). -/
def tagMatches (t : Tag) (v : FontVariation) : Bool := decide (v.tag = t)

/-- Numeric key of the externally defined metrics enumeration, used only to
order it inside the comparison tuple. -/
def metricsKindKey : TypefaceMetricsKind → ℕ
  | .legacy => 0
  | .portable => 1

/-- Comparison key of a typeface handle: handles are compared by pointer
identity, with the null handle ordered below every non-null one. -/
def typefaceKey : Option Typeface → WithBot ℕ
  | none => ⊥
  | some t => (t.id : WithBot ℕ)

/-- Comparison key of a `FontVariation`: the (tag, value) pair in
lexicographic order, mirroring `FontVariation::operator<`. -/
def variationKey (v : FontVariation) : ℕ ×ₗ ℚ := toLex (v.tag.tag, v.value)

/-- The lexicographically ordered tuple type underlying the `FontOptions`
comparison operators. -/
abbrev TieKey :=
  String ×ₗ String ×ₗ WithBot ℕ ×ₗ List String ×ₗ ℕ ×ₗ ℚ ×ₗ ℚ ×ₗ ℚ ×ₗ ℚ ×ₗ
    ℚ ×ₗ ℚ ×ₗ Bool ×ₗ Bool ×ₗ List (ℕ ×ₗ ℚ)

/-- The plain tuple of all fields of a `FontOptions`, in declaration
order. -/
def fieldTuple (o : FontOptions) :
    String × String × Option Typeface × List String × TypefaceMetricsKind ×
      ℚ × ℚ × ℚ × ℚ × ℚ × ℚ × Bool × Bool × List FontVariation :=
  (o.name, o.style, o.typeface, o.fallbacks, o.metricsKind, o.height,
    o.pointHeight, o.tracking, o.horizontalScale, o.ascentOverride,
    o.descentOverride, o.fallbackEnabled, o.underlined, o.variations)

/-- Maps the plain field tuple to its lexicographically ordered key. -/
def keyOfTuple :
    String × String × Option Typeface × List String × TypefaceMetricsKind ×
      ℚ × ℚ × ℚ × ℚ × ℚ × ℚ × Bool × Bool × List FontVariation → TieKey
  | (n, s, tf, fb, mk, h, ph, tr, hs, ao, dso, fe, u, vars) =>
    toLex (n, toLex (s, toLex (typefaceKey tf, toLex (fb,
      toLex (metricsKindKey mk, toLex (h, toLex (ph, toLex (tr,
        toLex (hs, toLex (ao, toLex (dso, toLex (fe,
          toLex (u, vars.map variationKey)))))))))))))

/-- Modelled from the spec: the canonical comparison tuple built by
`FontOptions::tie()`, whose body lives outside the verified header —
"a canonical tuple of all fields in a fixed, stable field order". -/
def tieKey (o : FontOptions) : TieKey := keyOfTuple (fieldTuple o)

/-- Modelled from the spec: `FontOptions::operator==` — equality of the
canonical field tuples. -/
def eqOp (a b : FontOptions) : Prop := tieKey a = tieKey b

/-- Modelled from the spec: `FontOptions::operator<` — lexicographic
comparison of the canonical field tuples. -/
def ltOp (a b : FontOptions) : Prop := tieKey a < tieKey b

/-! ## Claim theorems -/

open FontOptions

/-! ### Helper lemmas -/

theorem withName_of_typeface_none (o : FontOptions) (x : String)
    (h : o.typeface = none) : o.withName x = { o with name := x } := by
  rw [withName, if_pos h]

theorem withStyle_of_typeface_none (o : FontOptions) (x : String)
    (h : o.typeface = none) : o.withStyle x = { o with style := x } := by
  rw [withStyle, if_pos h]

theorem withName_height (o : FontOptions) (x : String) :
    (o.withName x).height = o.height := by
  rw [withName]; split <;> rfl

theorem withName_pointHeight (o : FontOptions) (x : String) :
    (o.withName x).pointHeight = o.pointHeight := by
  rw [withName]; split <;> rfl

theorem withStyle_height (o : FontOptions) (x : String) :
    (o.withStyle x).height = o.height := by
  rw [withStyle]; split <;> rfl

theorem withStyle_pointHeight (o : FontOptions) (x : String) :
    (o.withStyle x).pointHeight = o.pointHeight := by
  rw [withStyle]; split <;> rfl

theorem withTypeface_height (o : FontOptions) (x : Option Typeface) :
    (o.withTypeface x).height = o.height := by
  cases x with
  | none => rfl
  | some t =>
    show ((o.withName t.name).withStyle t.style).height = o.height
    rw [withStyle_height, withName_height]

theorem withTypeface_pointHeight (o : FontOptions) (x : Option Typeface) :
    (o.withTypeface x).pointHeight = o.pointHeight := by
  cases x with
  | none => rfl
  | some t =>
    show ((o.withName t.name).withStyle t.style).pointHeight = o.pointHeight
    rw [withStyle_pointHeight, withName_pointHeight]

theorem upsert_append_of_not_mem (t : Tag) (x : ℚ) :
    ∀ l : List FontVariation, (∀ v ∈ l, v.tag ≠ t) →
      upsert t x l = l ++ [⟨t, x⟩] := by
  intro l
  induction l with
  | nil => intro _; rfl
  | cons v vs ih =>
    intro h
    have hv : v.tag ≠ t := h v (List.mem_cons_self v vs)
    simp only [upsert, if_neg hv, List.cons_append, List.cons.injEq, true_and]
    exact ih fun e he => h e (List.mem_cons_of_mem v he)

theorem countP_upsert_eq_one (t : Tag) (x : ℚ) :
    ∀ l : List FontVariation, l.countP (tagMatches t) ≤ 1 →
      (upsert t x l).countP (tagMatches t) = 1 := by
  intro l
  induction l with
  | nil => intro _; simp [upsert, tagMatches]
  | cons v vs ih =>
    intro h
    rw [List.countP_cons] at h
    simp only [upsert]
    split_ifs with hv
    · have h1 : tagMatches t v = true := by simp [tagMatches, hv]
      have h2 : tagMatches t ({ v with value := x } : FontVariation) = true := by
        simp [tagMatches, hv]
      rw [h1] at h
      rw [List.countP_cons, h2]
      simp only [if_pos] at h ⊢
      omega
    · have h1 : tagMatches t v = false := by simp [tagMatches, hv]
      rw [h1, if_neg Bool.false_ne_true] at h
      rw [List.countP_cons, h1, if_neg Bool.false_ne_true, Nat.add_zero]
      exact ih (by omega)

theorem eq_of_mem_upsert (t : Tag) (x : ℚ) :
    ∀ l : List FontVariation, l.countP (tagMatches t) ≤ 1 →
      ∀ e ∈ upsert t x l, e.tag = t → e = ⟨t, x⟩ := by
  intro l
  induction l with
  | nil =>
    intro _ e he _
    simp only [upsert, List.mem_singleton] at he
    exact he
  | cons v vs ih =>
    intro h e he het
    rw [List.countP_cons] at h
    simp only [upsert] at he
    split_ifs at he with hv
    · rcases List.mem_cons.1 he with he | he
      · rw [he]
        exact congrArg (fun a => FontVariation.mk a x) hv
      · exfalso
        have hc : tagMatches t v = true := by simp [tagMatches, hv]
        rw [hc] at h
        simp only [if_pos] at h
        have h0 : vs.countP (tagMatches t) = 0 := by omega
        have := (List.countP_eq_zero.1 h0) e he
        simp [tagMatches, het] at this
    · rcases List.mem_cons.1 he with he | he
      · exact absurd (he ▸ het) hv
      · have hc : tagMatches t v = false := by simp [tagMatches, hv]
        rw [hc] at h
        exact ih (by omega) e he het

theorem upsert_upsert (t : Tag) (v1 v2 : ℚ) :
    ∀ l : List FontVariation, upsert t v2 (upsert t v1 l) = upsert t v2 l := by
  intro l
  induction l with
  | nil => simp [upsert]
  | cons v vs ih =>
    by_cases hv : v.tag = t
    · simp [upsert, hv]
    · simp [upsert, hv, ih]

theorem findIdx_upsert (t : Tag) (x : ℚ) :
    ∀ l : List FontVariation,
      (upsert t x l).findIdx (tagMatches t) = l.findIdx (tagMatches t) := by
  intro l
  induction l with
  | nil => simp [upsert, tagMatches, List.findIdx_cons]
  | cons v vs ih =>
    by_cases hv : v.tag = t
    · simp [upsert, hv, tagMatches, List.findIdx_cons]
    · simp [upsert, hv, tagMatches, List.findIdx_cons, ih]

/-! ### Claims -/

/-- C1 (amended): for every options value whose typeface handle is null and
every non-null handle `t`, `withTypeface (some t)` makes `getName` /
`getStyle` return `t`'s own name and style. -/
theorem c1_withTypeface_sets_name_style
    (o : FontOptions) (t : Typeface) (h : o.typeface = none) :
    (o.withTypeface (some t)).getName = t.name ∧
      (o.withTypeface (some t)).getStyle = t.style := by
  show ((o.withName t.name).withStyle t.style).name = t.name ∧
    ((o.withName t.name).withStyle t.style).style = t.style
  rw [withName_of_typeface_none o t.name h]
  rw [withStyle_of_typeface_none { o with name := t.name } t.style h]
  exact ⟨rfl, rfl⟩

/-- C1 counterexample: when the receiver already holds a non-null typeface,
`withTypeface` keeps the previously stored name/style instead of the new
handle's — refuting the claim as stated for every options value. -/
theorem c1_counterexample :
    ¬ (((FontOptions.default.withTypeface (some ⟨1, "A", "SA"⟩)).withTypeface
          (some ⟨2, "B", "SB"⟩)).getName = "B" ∧
        ((FontOptions.default.withTypeface (some ⟨1, "A", "SA"⟩)).withTypeface
          (some ⟨2, "B", "SB"⟩)).getStyle = "SB") := by
  decide

/-- C1 witness: instantiated at the default options. -/
theorem c1_witness :
    FontOptions.default.typeface = none ∧
      ((FontOptions.default.withTypeface (some ⟨1, "A", "SA"⟩)).getName = "A" ∧
        (FontOptions.default.withTypeface (some ⟨1, "A", "SA"⟩)).getStyle = "SA") :=
  ⟨rfl, c1_withTypeface_sets_name_style FontOptions.default ⟨1, "A", "SA"⟩ rfl⟩

/-- C3 (amended): for an options value holding at most one variation entry
with tag `t`, two successive `withVariation t` calls leave exactly one entry
with tag `t`, carrying the second value, at the position it had after the
first call; and for any options value with no entry for `t`, `withVariation`
appends at the end, preserving pre-existing entries. -/
theorem c3_withVariation_upsert
    (o : FontOptions) (t : Tag) (v1 v2 : ℚ)
    (h : o.variations.countP (tagMatches t) ≤ 1) :
    ((o.withVariation t v1).withVariation t v2).variations.countP (tagMatches t) = 1 ∧
      (∀ e ∈ ((o.withVariation t v1).withVariation t v2).variations,
        e.tag = t → e = ⟨t, v2⟩) ∧
      ((o.withVariation t v1).withVariation t v2).variations.findIdx (tagMatches t) =
        (o.withVariation t v1).variations.findIdx (tagMatches t) ∧
      ∀ (p : FontOptions) (v : ℚ), (∀ e ∈ p.variations, e.tag ≠ t) →
        (p.withVariation t v).variations = p.variations ++ [⟨t, v⟩] := by
  refine ⟨?_, ?_, ?_, ?_⟩
  · show (upsert t v2 (upsert t v1 o.variations)).countP (tagMatches t) = 1
    rw [upsert_upsert]
    exact countP_upsert_eq_one t v2 o.variations h
  · show ∀ e ∈ upsert t v2 (upsert t v1 o.variations), e.tag = t → e = ⟨t, v2⟩
    rw [upsert_upsert]
    exact eq_of_mem_upsert t v2 o.variations h
  · exact findIdx_upsert t v2 (upsert t v1 o.variations)
  · intro p v hp
    exact upsert_append_of_not_mem t v p.variations hp

/-- C3 counterexample: `withVariations` accepts duplicate tags, and
`withVariation` only updates the first match, so an options value built with
a duplicated tag still holds two entries for that tag after the double
`withVariation` — refuting "exactly one entry" for every options value. -/
theorem c3_counterexample :
    ¬ (((FontOptions.default.withVariations
            [⟨⟨1⟩, 0⟩, ⟨⟨1⟩, 0⟩]).withVariation ⟨1⟩ 2).withVariation
          ⟨1⟩ 3).variations.countP (tagMatches ⟨1⟩) = 1 := by
  decide

/-- C3 witness: instantiated on a duplicate-free variation list. -/
theorem c3_witness :
    (FontOptions.default.withVariations
        [⟨⟨1⟩, 5⟩, ⟨⟨2⟩, 6⟩]).variations.countP (tagMatches ⟨1⟩) ≤ 1 ∧
      ((((FontOptions.default.withVariations
              [⟨⟨1⟩, 5⟩, ⟨⟨2⟩, 6⟩]).withVariation ⟨1⟩ 7).withVariation
            ⟨1⟩ 8).variations.countP (tagMatches ⟨1⟩) = 1 ∧
        (∀ e ∈ (((FontOptions.default.withVariations
              [⟨⟨1⟩, 5⟩, ⟨⟨2⟩, 6⟩]).withVariation ⟨1⟩ 7).withVariation
            ⟨1⟩ 8).variations, e.tag = ⟨1⟩ → e = ⟨⟨1⟩, 8⟩) ∧
        (((FontOptions.default.withVariations
              [⟨⟨1⟩, 5⟩, ⟨⟨2⟩, 6⟩]).withVariation ⟨1⟩ 7).withVariation
            ⟨1⟩ 8).variations.findIdx (tagMatches ⟨1⟩) =
          ((FontOptions.default.withVariations
              [⟨⟨1⟩, 5⟩, ⟨⟨2⟩, 6⟩]).withVariation ⟨1⟩ 7).variations.findIdx
            (tagMatches ⟨1⟩) ∧
        ∀ (p : FontOptions) (v : ℚ), (∀ e ∈ p.variations, e.tag ≠ (⟨1⟩ : Tag)) →
          (p.withVariation ⟨1⟩ v).variations = p.variations ++ [⟨⟨1⟩, v⟩]) :=
  ⟨by decide,
    c3_withVariation_upsert
      (FontOptions.default.withVariations [⟨⟨1⟩, 5⟩, ⟨⟨2⟩, 6⟩]) ⟨1⟩ 7 8
      (by decide)⟩

/-- C6: every `with*` mutator returns a copy replacing only its target field
(plus the documented linked fields of `withHeight`, `withPointHeight` and
`withTypeface`), leaving all other fields equal to the original. -/
theorem c6_mutators_frame (o : FontOptions) :
    (∀ x, o.typeface = none → o.withName x = { o with name := x }) ∧
      (∀ x, o.typeface = none → o.withStyle x = { o with style := x }) ∧
      (∀ t : Typeface, o.typeface = none → o.withTypeface (some t) =
        { o with name := t.name, style := t.style, typeface := some t }) ∧
      o.withTypeface none = { o with typeface := none } ∧
      (∀ x, o.withFallbacks x = { o with fallbacks := x }) ∧
      (∀ x, o.withFallbackEnabled x = { o with fallbackEnabled := x }) ∧
      (∀ x, o.withHeight x = { o with height := x, pointHeight := -1 }) ∧
      (∀ x, o.withPointHeight x = { o with pointHeight := x, height := -1 }) ∧
      (∀ x, o.withKerningFactor x = { o with tracking := x }) ∧
      (∀ x, o.withHorizontalScale x = { o with horizontalScale := x }) ∧
      (∀ x, o.withUnderline x = { o with underlined := x }) ∧
      (∀ x, o.withMetricsKind x = { o with metricsKind := x }) ∧
      (∀ x, o.withAscentOverride x = { o with ascentOverride := x.getD (-1) }) ∧
      (∀ x, o.withDescentOverride x = { o with descentOverride := x.getD (-1) }) ∧
      (∀ x, o.withVariations x = { o with variations := x }) ∧
      ∀ t v, o.withVariation t v =
        { o with variations := upsert t v o.variations } := by
  refine ⟨fun x h => withName_of_typeface_none o x h,
    fun x h => withStyle_of_typeface_none o x h,
    fun t h => ?_, rfl, fun x => rfl, fun x => rfl, fun x => rfl, fun x => rfl,
    fun x => rfl, fun x => rfl, fun x => rfl, fun x => rfl, fun x => rfl,
    fun x => rfl, fun x => rfl, fun t v => rfl⟩
  show { (o.withName t.name).withStyle t.style with typeface := some t } = _
  rw [withName_of_typeface_none o t.name h]
  rw [withStyle_of_typeface_none { o with name := t.name } t.style h]

theorem not_nonneg_neg_one : ¬ (0 : ℚ) ≤ -1 := by norm_num

/-- C5 (amended): for every reachable options value, at most one of the
pixel-height and point-height fields is set (non-negative) at a time. -/
theorem c5_at_most_one_height_set (o : FontOptions) (ho : Reachable o) :
    ¬ (0 ≤ o.height ∧ 0 ≤ o.pointHeight) := by
  induction ho with
  | mk_default => decide
  | mk_height h => exact fun hc => not_nonneg_neg_one hc.2
  | mk_height_flags h f => exact fun hc => not_nonneg_neg_one hc.2
  | mk_name n h f => exact fun hc => not_nonneg_neg_one hc.2
  | mk_name_style n s h => exact fun hc => not_nonneg_neg_one hc.2
  | mk_typeface t => cases t <;> exact fun hc => not_nonneg_neg_one hc.2
  | step_name o x hr ih =>
    rw [withName_height, withName_pointHeight]; exact ih
  | step_style o x hr ih =>
    rw [withStyle_height, withStyle_pointHeight]; exact ih
  | step_typeface o x hr ih =>
    rw [withTypeface_height, withTypeface_pointHeight]; exact ih
  | step_fallbacks o x hr ih => exact ih
  | step_fallback_enabled o x hr ih => exact ih
  | step_height o x hr ih => exact fun hc => not_nonneg_neg_one hc.2
  | step_point_height o x hr ih => exact fun hc => not_nonneg_neg_one hc.1
  | step_kerning o x hr ih => exact ih
  | step_horizontal_scale o x hr ih => exact ih
  | step_underline o x hr ih => exact ih
  | step_metrics_kind o x hr ih => exact ih
  | step_ascent o x hr ih => exact ih
  | step_descent o x hr ih => exact ih
  | step_variations o x hr ih => exact ih
  | step_variation o t v hr ih => exact ih

/-- C5 counterexample: the default-constructed options value is reachable
and has neither height set (both fields hold the `-1` sentinel), refuting
"exactly one of the two is set" for every reachable value. -/
theorem c5_counterexample :
    Reachable FontOptions.default ∧
      ¬ ((0 ≤ FontOptions.default.height ∧ ¬ 0 ≤ FontOptions.default.pointHeight) ∨
          (¬ 0 ≤ FontOptions.default.height ∧ 0 ≤ FontOptions.default.pointHeight)) :=
  ⟨Reachable.mk_default, by decide⟩

/-- C5 witness: the invariant instantiated at a reachable value. -/
theorem c5_witness :
    Reachable (FontOptions.default.withHeight 5) ∧
      ¬ (0 ≤ (FontOptions.default.withHeight 5).height ∧
          0 ≤ (FontOptions.default.withHeight 5).pointHeight) :=
  ⟨Reachable.step_height FontOptions.default 5 Reachable.mk_default,
    c5_at_most_one_height_set (FontOptions.default.withHeight 5)
      (Reachable.step_height FontOptions.default 5 Reachable.mk_default)⟩

/-- C8: the comparison operators work on the canonical fixed-order field
tuple: equality is reflexive, the ordering is total (trichotomy), and any
two options values with identical field tuples compare equal — regardless of
how each was constructed. -/
theorem c8_comparison_canonical_tuple :
    (∀ o : FontOptions, eqOp o o) ∧
      (∀ a b : FontOptions, ltOp a b ∨ eqOp a b ∨ ltOp b a) ∧
      ∀ a b : FontOptions, fieldTuple a = fieldTuple b → eqOp a b :=
  ⟨fun _ => rfl, fun a b => lt_trichotomy (tieKey a) (tieKey b),
    fun _ _ h => congrArg keyOfTuple h⟩

/-- C8 witness: a value built by the multi-argument constructor and one
built by chained mutators have identical field tuples and compare equal. -/
theorem c8_witness :
    fieldTuple (mkNameStyle "N" "S" 5) =
        fieldTuple (((FontOptions.default.withName "N").withStyle "S").withHeight 5) ∧
      eqOp (mkNameStyle "N" "S" 5)
        (((FontOptions.default.withName "N").withStyle "S").withHeight 5) :=
  ⟨rfl, c8_comparison_canonical_tuple.2.2 (mkNameStyle "N" "S" 5)
    (((FontOptions.default.withName "N").withStyle "S").withHeight 5) rfl⟩

/-- C6 witness: two mutators instantiated at the default options. -/
theorem c6_witness :
    FontOptions.default.withName "X" = { FontOptions.default with name := "X" } ∧
      FontOptions.default.withTypeface (some ⟨1, "A", "S"⟩) =
        { FontOptions.default with
            name := "A", style := "S", typeface := some ⟨1, "A", "S"⟩ } :=
  ⟨(c6_mutators_frame FontOptions.default).1 "X" rfl,
    (c6_mutators_frame FontOptions.default).2.2.1 ⟨1, "A", "S"⟩ rfl⟩

/-- C2: for every `FontOptions` value whose typeface handle is non-null and
every string, `withName` and `withStyle` are assert-guarded no-ops: they
return the object unchanged in every field. -/
theorem c2_withName_withStyle_noop_when_typeface_present
    (o : FontOptions) (s : String) (h : o.typeface ≠ none) :
    o.withName s = o ∧ o.withStyle s = o := by
  constructor
  · rw [withName, if_neg h]
  · rw [withStyle, if_neg h]

/-- C2 witness: a concrete options value holding a non-null typeface is left
unchanged by `withName`. -/
theorem c2_witness :
    (FontOptions.default.withTypeface (some ⟨1, "Arial", "Regular"⟩)).typeface ≠ none ∧
      ((FontOptions.default.withTypeface (some ⟨1, "Arial", "Regular"⟩)).withName "X" =
          FontOptions.default.withTypeface (some ⟨1, "Arial", "Regular"⟩) ∧
        (FontOptions.default.withTypeface (some ⟨1, "Arial", "Regular"⟩)).withStyle "X" =
          FontOptions.default.withTypeface (some ⟨1, "Arial", "Regular"⟩)) :=
  ⟨by decide,
    c2_withName_withStyle_noop_when_typeface_present
      (FontOptions.default.withTypeface (some ⟨1, "Arial", "Regular"⟩)) "X" (by decide)⟩

/-- C4: for every options value and positive `x`, `withHeight x` yields
`getHeight = x` and `getPointHeight = -1`, and symmetrically
`withPointHeight x` yields `getPointHeight = x` and `getHeight = -1`. -/
theorem c4_height_point_height_sentinel
    (o : FontOptions) (x : ℚ) (_hx : 0 < x) :
    (o.withHeight x).getHeight = x ∧ (o.withHeight x).getPointHeight = -1 ∧
      (o.withPointHeight x).getPointHeight = x ∧ (o.withPointHeight x).getHeight = -1 :=
  ⟨rfl, rfl, rfl, rfl⟩

/-- C4 witness: instantiated at the default options and height `5`. -/
theorem c4_witness :
    (0 : ℚ) < 5 ∧
      ((FontOptions.default.withHeight 5).getHeight = 5 ∧
        (FontOptions.default.withHeight 5).getPointHeight = -1 ∧
        (FontOptions.default.withPointHeight 5).getPointHeight = 5 ∧
        (FontOptions.default.withPointHeight 5).getHeight = -1) :=
  ⟨by norm_num, c4_height_point_height_sentinel FontOptions.default 5 (by norm_num)⟩

/-- C7: the override getters return `none` exactly when the stored field is
negative, and the stored value wrapped in `some` otherwise; in particular an
ascent override of `9/10` round-trips to `some (9/10)`. -/
theorem c7_override_getters_sentinel (o : FontOptions) :
    (o.getAscentOverride = none ↔ o.ascentOverride < 0) ∧
      (0 ≤ o.ascentOverride → o.getAscentOverride = some o.ascentOverride) ∧
      (o.getDescentOverride = none ↔ o.descentOverride < 0) ∧
      (0 ≤ o.descentOverride → o.getDescentOverride = some o.descentOverride) ∧
      (o.withAscentOverride (some (9/10))).getAscentOverride = some (9/10) ∧
      (o.withDescentOverride (some (9/10))).getDescentOverride = some (9/10) := by
  refine ⟨?_, ?_, ?_, ?_, ?_, ?_⟩
  · rw [getAscentOverride]
    split_ifs with h
    · simp [not_lt.2 h]
    · simp [not_le.1 h]
  · intro h
    rw [getAscentOverride, if_pos h]
  · rw [getDescentOverride]
    split_ifs with h
    · simp [not_lt.2 h]
    · simp [not_le.1 h]
  · intro h
    rw [getDescentOverride, if_pos h]
  · rw [withAscentOverride, getAscentOverride]
    norm_num
  · rw [withDescentOverride, getDescentOverride]
    norm_num

/-- C7 witness: the inner implications discharged on a value whose stored
overrides are non-negative. -/
theorem c7_witness :
    (0 : ℚ) ≤ ((FontOptions.default.withAscentOverride (some 2)).withDescentOverride
        (some 3)).ascentOverride ∧
      (0 : ℚ) ≤ ((FontOptions.default.withAscentOverride (some 2)).withDescentOverride
        (some 3)).descentOverride ∧
      ((FontOptions.default.withAscentOverride (some 2)).withDescentOverride
          (some 3)).getAscentOverride =
        some ((FontOptions.default.withAscentOverride (some 2)).withDescentOverride
          (some 3)).ascentOverride ∧
      ((FontOptions.default.withAscentOverride (some 2)).withDescentOverride
          (some 3)).getDescentOverride =
        some ((FontOptions.default.withAscentOverride (some 2)).withDescentOverride
          (some 3)).descentOverride :=
  ⟨by decide, by decide,
    (c7_override_getters_sentinel
      ((FontOptions.default.withAscentOverride (some 2)).withDescentOverride
        (some 3))).2.1 (by decide),
    (c7_override_getters_sentinel
      ((FontOptions.default.withAscentOverride (some 2)).withDescentOverride
        (some 3))).2.2.2.1 (by decide)⟩

/-- C9: `Tag` equality, inequality and ordering hold exactly by comparison
of the raw integer tag values, and `FontVariation` equality, inequality and
ordering hold exactly by lexicographic comparison of the (tag, value)
tuple. -/
theorem c9_tag_and_variation_comparisons :
    (∀ a b : Tag,
        (Tag.beq a b = true ↔ a.tag = b.tag) ∧
        (Tag.bne a b = true ↔ a.tag ≠ b.tag) ∧
        (Tag.blt a b = true ↔ a.tag < b.tag)) ∧
      ∀ p q : FontVariation,
        (FontVariation.beq p q = true ↔ (p.tag.tag, p.value) = (q.tag.tag, q.value)) ∧
        (FontVariation.bne p q = true ↔ (p.tag.tag, p.value) ≠ (q.tag.tag, q.value)) ∧
        (FontVariation.blt p q = true ↔
          (p.tag.tag < q.tag.tag ∨ (p.tag.tag = q.tag.tag ∧ p.value < q.value))) := by
  have hbeq : ∀ p q : FontVariation,
      FontVariation.beq p q = true ↔ (p.tag.tag, p.value) = (q.tag.tag, q.value) := by
    intro p q
    simp [FontVariation.beq, Tag.beq, Prod.ext_iff]
  refine ⟨fun a b => ⟨?_, ?_, ?_⟩, fun p q => ⟨hbeq p q, ?_, ?_⟩⟩
  · simp [Tag.beq]
  · simp [Tag.bne]
  · simp [Tag.blt]
  · rw [FontVariation.bne, Bool.not_eq_true', ← Bool.not_eq_true]
    exact not_congr (hbeq p q)
  · rw [FontVariation.blt]
    simp only [Bool.or_eq_true, Bool.and_eq_true, Bool.not_eq_true',
      decide_eq_true_eq, decide_eq_false_iff_not, not_lt]
    constructor
    · rintro (h | ⟨hle, hv⟩)
      · exact Or.inl h
      · rcases lt_or_eq_of_le hle with h' | h'
        · exact Or.inl h'
        · exact Or.inr ⟨h', hv⟩
    · rintro (h | ⟨he, hv⟩)
      · exact Or.inl h
      · exact Or.inr ⟨le_of_eq he, hv⟩

/-- C10: supplying a negative override as a present value stores that value,
yet the getter then reports it as absent — indistinguishable from an unset
override. -/
theorem c10_negative_override_reads_as_absent
    (o : FontOptions) (v : ℚ) (hv : v < 0) :
    (o.withAscentOverride (some v)).ascentOverride = v ∧
      (o.withAscentOverride (some v)).getAscentOverride = none ∧
      (o.withAscentOverride (some v)).getAscentOverride =
        (o.withAscentOverride none).getAscentOverride ∧
      (o.withDescentOverride (some v)).descentOverride = v ∧
      (o.withDescentOverride (some v)).getDescentOverride = none ∧
      (o.withDescentOverride (some v)).getDescentOverride =
        (o.withDescentOverride none).getDescentOverride := by
  have ha : (o.withAscentOverride (some v)).getAscentOverride = none := by
    rw [withAscentOverride, getAscentOverride]
    exact if_neg (not_le.2 hv)
  have hd : (o.withDescentOverride (some v)).getDescentOverride = none := by
    rw [withDescentOverride, getDescentOverride]
    exact if_neg (not_le.2 hv)
  have ha' : (o.withAscentOverride none).getAscentOverride = none := by
    rw [withAscentOverride, getAscentOverride]
    norm_num
  have hd' : (o.withDescentOverride none).getDescentOverride = none := by
    rw [withDescentOverride, getDescentOverride]
    norm_num
  exact ⟨rfl, ha, ha.trans ha'.symm, rfl, hd, hd.trans hd'.symm⟩

/-- C10 witness: instantiated at the default options and override `-2`. -/
theorem c10_witness :
    (-2 : ℚ) < 0 ∧
      ((FontOptions.default.withAscentOverride (some (-2))).ascentOverride = -2 ∧
        (FontOptions.default.withAscentOverride (some (-2))).getAscentOverride = none ∧
        (FontOptions.default.withAscentOverride (some (-2))).getAscentOverride =
          (FontOptions.default.withAscentOverride none).getAscentOverride ∧
        (FontOptions.default.withDescentOverride (some (-2))).descentOverride = -2 ∧
        (FontOptions.default.withDescentOverride (some (-2))).getDescentOverride = none ∧
        (FontOptions.default.withDescentOverride (some (-2))).getDescentOverride =
          (FontOptions.default.withDescentOverride none).getDescentOverride) :=
  ⟨by norm_num,
    c10_negative_override_reads_as_absent FontOptions.default (-2) (by norm_num)⟩

end JuceFontOptions
